import Mathlib

/-!
Verification of the `azure-ai-playwright` Medicaid RAG pipeline:
a shallow embedding of `ingest-data.py` (both copies) and
`medicaid-rag-agent.py`, with theorems settling the specification claims
about document identity, batching, embedding truncation, search fallback
and prompt assembly.
-/

set_option maxRecDepth 10000

/-! ## UTF-8 encoding of strings (Python `str.encode()`), byte values as `Nat` -/

/-- UTF-8 encoding of a single character (code point), as in Python `str.encode()`. -/
def utf8EncodeChar (c : Char) : List Nat :=
  let n := c.toNat
  if n < 128 then [n]
  else if n < 2048 then [192 + n / 64, 128 + n % 64]
  else if n < 65536 then [224 + n / 4096, 128 + (n / 64) % 64, 128 + n % 64]
  else [240 + n / 262144, 128 + (n / 4096) % 64, 128 + (n / 64) % 64, 128 + n % 64]

/-- UTF-8 encoding of a string as a byte list, as in Python `str.encode()`. -/
def utf8Encode (s : String) : List Nat := s.data.flatMap utf8EncodeChar

/-! ## SHA-1 (FIPS 180-4), as used by Python `hashlib.sha1(...).hexdigest()`.
Words are `Nat` values kept below `2^32` by explicit `% 2^32`. -/

namespace Sha1

def pow32 : Nat := 4294967296

/-- 32-bit left rotation. -/
def rotl (n x : Nat) : Nat := ((x <<< n) ||| (x >>> (32 - n))) % pow32

/-- `k`-byte big-endian representation of `n`. -/
def toBEBytes (k n : Nat) : List Nat :=
  (List.range k).map (fun i => (n >>> (8 * (k - 1 - i))) % 256)

/-- Merkle–Damgård padding: append `0x80`, zero bytes to 56 mod 64, then the
bit length as 8 big-endian bytes. -/
def pad (msg : List Nat) : List Nat :=
  msg ++ 128 :: (List.replicate ((119 - msg.length % 64) % 64) 0 ++ toBEBytes 8 (8 * msg.length))

/-- Group bytes four at a time into big-endian 32-bit words. -/
def bytesToWords : List Nat → List Nat
  | b0 :: b1 :: b2 :: b3 :: rest =>
    ((b0 <<< 24) ||| (b1 <<< 16) ||| (b2 <<< 8) ||| b3) :: bytesToWords rest
  | _ => []

/-- Split a byte list into 64-byte blocks (`fuel` bounds the recursion). -/
def chunk64 : Nat → List Nat → List (List Nat)
  | 0, _ => []
  | _ + 1, [] => []
  | fuel + 1, l => l.take 64 :: chunk64 fuel (l.drop 64)

/-- One message-schedule extension step; `acc` holds the words produced so far,
most recent first, so `acc.getD 2 0` is `w[t-3]`, …, `acc.getD 15 0` is `w[t-16]`. -/
def schedStep (acc : List Nat) : List Nat :=
  rotl 1 ((((acc.getD 2 0) ^^^ (acc.getD 7 0)) ^^^ (acc.getD 13 0)) ^^^ (acc.getD 15 0)) :: acc

/-- Extend the 16 block words to the 80-word message schedule. -/
def schedule (w16 : List Nat) : List Nat :=
  ((List.range 64).foldl (fun acc _ => schedStep acc) w16.reverse).reverse

/-- Round function and round constant for round `t`. -/
def fK (t b c d : Nat) : Nat × Nat :=
  if t < 20 then ((b &&& c) ||| ((b ^^^ 4294967295) &&& d), 1518500249)
  else if t < 40 then ((b ^^^ c) ^^^ d, 1859775393)
  else if t < 60 then (((b &&& c) ||| (b &&& d)) ||| (c &&& d), 2400959708)
  else ((b ^^^ c) ^^^ d, 3395469782)

structure Hstate where
  a : Nat
  b : Nat
  c : Nat
  d : Nat
  e : Nat

/-- One SHA-1 round; `tw` is the pair (round index, schedule word). -/
def round (st : Hstate) (tw : Nat × Nat) : Hstate :=
  let fk := fK tw.1 st.b st.c st.d
  let temp := (rotl 5 st.a + fk.1 + st.e + fk.2 + tw.2) % pow32
  ⟨temp, st.a, rotl 30 st.b, st.c, st.d⟩

/-- Compress one 64-byte block into the running state. -/
def processBlock (h : Hstate) (block : List Nat) : Hstate :=
  let ws := schedule (bytesToWords block)
  let st := ws.enum.foldl round h
  ⟨(h.a + st.a) % pow32, (h.b + st.b) % pow32, (h.c + st.c) % pow32,
   (h.d + st.d) % pow32, (h.e + st.e) % pow32⟩

def initH : Hstate := ⟨1732584193, 4023233417, 2562383102, 271733878, 3285377520⟩

/-- SHA-1 digest of a byte list, as five 32-bit words. -/
def digestWords (msg : List Nat) : List Nat :=
  let padded := pad msg
  let h := (chunk64 padded.length padded).foldl processBlock initH
  [h.a, h.b, h.c, h.d, h.e]

/-- Lowercase hex digit. -/
def hexChar (n : Nat) : Char := if n < 10 then Char.ofNat (48 + n) else Char.ofNat (87 + n)

/-- Eight lowercase hex characters of a 32-bit word, most significant first. -/
def wordHex (w : Nat) : List Char := (List.range 8).map (fun i => hexChar ((w >>> (4 * (7 - i))) % 16))

/-- `hashlib.sha1(msg).hexdigest()`: the 40-character lowercase hex digest. -/
def hexdigest (msg : List Nat) : String := ⟨(digestWords msg).flatMap wordHex⟩

end Sha1

/-! ## Ingestion (`ingest-data.py`, both the `data/` and `src/` copies)

A file on disk is modelled by the values the script reads from it: the path
string passed to `file_to_doc`, the results of `os.path.abspath` and
`os.path.basename` on that path, the decoded text content, and the
`os.stat` fields `st_mtime_ns` and `st_size`. Embedding vectors
(Python `List[float]`) are modelled opaquely as `List Int`; no claim
inspects their numeric values. -/

namespace Ingest

/-- The string hashed for the document id:
`f"{path}:{stat.st_mtime_ns}:{stat.st_size}"` in `file_to_doc`.
`path` is the argument exactly as passed, not `os.path.abspath(path)`. -/
def fingerprint (path : String) (mtimeNs size : Nat) : String :=
  path ++ ":" ++ toString mtimeNs ++ ":" ++ toString size

/-- `hashlib.sha1(f"{path}:{stat.st_mtime_ns}:{stat.st_size}".encode()).hexdigest()`. -/
def doc_id (path : String) (mtimeNs size : Nat) : String :=
  Sha1.hexdigest (utf8Encode (fingerprint path mtimeNs size))

/-- The observations `file_to_doc` makes of a file. -/
structure FileView where
  path : String
  absPath : String
  baseName : String
  content : String
  mtimeNs : Nat
  size : Nat
deriving Repr, DecidableEq

/-- The document dict built by `file_to_doc`. `embedding` is `none` for the
`data/` copy, which attaches no vector. -/
structure Doc where
  id : String
  content : String
  path : String
  title : String
  length : Nat
  embedding : Option (List Int)
deriving Repr, DecidableEq

/-- `file_to_doc` from `data/ingest-data.py` (and the dict-building part of the
`src/` copy): id from the fingerprint hash, `path` = `os.path.abspath(path)`,
`title` = `os.path.basename(path)`, `length` = `len(text)`. -/
def file_to_doc (f : FileView) : Doc :=
  { id := doc_id f.path f.mtimeNs f.size
    content := f.content
    path := f.absPath
    title := f.baseName
    length := f.content.length
    embedding := none }

/-- Azure OpenAI configuration seen by `get_embedding`. -/
structure AoaiEnv where
  endpointSet : Bool
  apiKeySet : Bool
  embedDims : Nat
deriving Repr, DecidableEq

/-- `snippet = text if len(text) <= 16000 else text[:16000]` in `get_embedding`:
Python slicing takes the first 16000 characters (code points). -/
def snippet (text : String) : String :=
  if text.length ≤ 16000 then text else ⟨text.data.take 16000⟩

/-- `get_embedding` from `src/ingest-data.py`. The remote embeddings call is a
parameter `svc`; the function submits `snippet text` to it, never `text`
itself. Failure of `svc` models the HTTP/SDK call raising. -/
def get_embedding (env : AoaiEnv) (svc : String → Except String (List Int))
    (text : String) : Except String (List Int) :=
  if ¬ (env.endpointSet ∧ env.apiKeySet) then
    .error "Azure OpenAI environment variables are not set. Please set AZURE_OPENAI_ENDPOINT and AZURE_OPENAI_API_KEY."
  else
    match svc (snippet text) with
    | .error e => .error e
    | .ok vec =>
      if vec.length ≠ env.embedDims then
        .error ("Embedding length " ++ toString vec.length ++ " does not match EMBED_DIMS "
          ++ toString env.embedDims ++ ". Check your deployment and AZURE_OPENAI_EMBED_DIMS.")
      else .ok vec

/-- `file_to_doc` from `src/ingest-data.py`: builds the dict, then attaches the
embedding; an embedding failure is re-raised as
`RuntimeError(f"Failed to create embedding for {path}: {e}")`. -/
def file_to_doc_embedded (env : AoaiEnv) (svc : String → Except String (List Int))
    (f : FileView) : Except String Doc :=
  match get_embedding env svc f.content with
  | .ok v => .ok { file_to_doc f with embedding := some v }
  | .error e => .error ("Failed to create embedding for " ++ f.path ++ ": " ++ e)

/-- The loop of `upload_documents`: `batch` is the list being filled; a batch is
flushed (one `search_client.upload_documents` call) as soon as
`len(batch) >= batch_size`, and a non-empty remainder is flushed at the end. -/
def uploadGo (B : Nat) : List α → List α → List (List α)
  | [], batch => if batch.isEmpty then [] else [batch]
  | d :: ds, batch =>
    let batch2 := batch ++ [d]
    if B ≤ batch2.length then batch2 :: uploadGo B ds [] else uploadGo B ds batch2

/-- `upload_documents(batch_iterable, batch_size)`, observed as the sequence of
upsert calls it issues: each element of the result is the document list of one
`search_client.upload_documents` call, in order. -/
def upload_documents (docs : List α) (B : Nat) : List (List α) := uploadGo B docs []

/-- The `upload_documents` loop when the iterable is the `load_txt_files`
generator over `file_to_doc_embedded`: each file is converted lazily inside the
loop; an exception from the generator propagates immediately, so `acc` (the
batches already upserted) is returned with the error and the trailing partial
batch is never flushed. -/
def ingestGo (B : Nat) (f2d : α → Except String β) :
    List α → List β → List (List β) → List (List β) × Option String
  | [], batch, acc => (acc ++ if batch.isEmpty then [] else [batch], none)
  | f :: fs, batch, acc =>
    match f2d f with
    | .error e => (acc, some e)
    | .ok d =>
      let batch2 := batch ++ [d]
      if B ≤ batch2.length then ingestGo B f2d fs [] (acc ++ [batch2])
      else ingestGo B f2d fs batch2 acc

/-- Running ingestion over `files` in order: the upsert calls issued and the
error that aborted the run, if any. -/
def ingestRun (B : Nat) (f2d : α → Except String β) (files : List α) :
    List (List β) × Option String :=
  ingestGo B f2d files [] []

/-- Only the full batches flushed while consuming `ds` starting from partial
batch `batch` (no final flush): the batches upserted before an abort. -/
def flushGo (B : Nat) : List β → List β → List (List β)
  | [], _ => []
  | d :: ds, batch =>
    let batch2 := batch ++ [d]
    if B ≤ batch2.length then batch2 :: flushGo B ds [] else flushGo B ds batch2

end Ingest

/-! ## Query pipeline (`src/medicaid-rag-agent.py`)

External calls — the query-embedding request, the hybrid (text + vector)
search, the lexical-only search and the chat completion — are parameters
returning `Except String _`; an `error` value models the call raising. -/

namespace Agent

/-- A result dict built from an Azure AI Search hit in `search_documents`
(`score` is `@search.score`, modelled opaquely as `Int`). -/
structure SearchDoc where
  id : String
  content : String
  title : String
  path : String
  score : Int
deriving Repr, DecidableEq

/-- External capabilities used by `search_documents`:
`aoaiConfigured` is `AOAI_ENDPOINT and AOAI_API_KEY` being set, `embed` the
query-embedding request, `hybrid` the search call with a `VectorizedQuery`
attached, `lexical` the search call with no vector. -/
structure SearchDeps where
  aoaiConfigured : Bool
  embed : String → Except String (List Int)
  hybrid : List Int → Except String (List SearchDoc)
  lexical : Except String (List SearchDoc)

/-- The text `search_documents` submits to the embedding capability:
`embed_client.embeddings.create(input=query, ...)` passes the query through
unchanged — there is no truncation on the query path. -/
def queryEmbedInput (query : String) : String := query

/-- The `try` block of `search_documents`: raise if the Azure OpenAI
configuration is missing, embed the query, then run the hybrid search. -/
def vectorSearchAttempt (deps : SearchDeps) (query : String) :
    Except String (List SearchDoc) :=
  if ¬ deps.aoaiConfigured then
    .error "Missing Azure OpenAI configuration for embeddings"
  else
    match deps.embed (queryEmbedInput query) with
    | .error e => .error e
    | .ok vec => deps.hybrid vec

/-- `search_documents`: try the hybrid/vector path; on any exception fall back
to text-only search; if that also raises, return the empty `documents` list.
No exception escapes. -/
def search_documents (deps : SearchDeps) (query : String) : List SearchDoc :=
  match vectorSearchAttempt deps query with
  | .ok docs => docs
  | .error _ =>
    match deps.lexical with
    | .ok docs => docs
    | .error _ => []

/-- One document's contribution to the context block in `create_rag_prompt`:
`f"Document: {doc['title']}\n{doc['content'][:1000]}..."` when
`len(doc['content']) > 1000`, else the full content with no marker. -/
def docEntry (doc : SearchDoc) : String :=
  if 1000 < doc.content.length then
    "Document: " ++ doc.title ++ "\n" ++ String.mk (doc.content.data.take 1000) ++ "..."
  else
    "Document: " ++ doc.title ++ "\n" ++ doc.content

/-- The context block of `create_rag_prompt`: the entries joined by
`"\n\n".join(...)`, in the order the documents were returned. -/
def ragContext (docs : List SearchDoc) : String :=
  String.intercalate "\n\n" (docs.map docEntry)

/-- `create_rag_prompt(query, documents)`. -/
def create_rag_prompt (query : String) (docs : List SearchDoc) : String :=
  "You are a helpful assistant that answers questions about Medicaid based on the provided context.\n\nContext from documents:\n"
    ++ ragContext docs
    ++ "\n\nUser Question: " ++ query
    ++ "\n\nPlease answer the question based on the context provided above. If the answer is not in the context, say so."

/-- The observable outcome of `rag_query`. -/
inductive RagReply where
  | noRelevantDocs
  | answer (a : String)
  | generationError (e : String)
deriving Repr, DecidableEq

/-- `rag_query`: retrieve via `search_documents`; when the result list is empty
print "❌ No relevant documents found." and return without calling the chat
capability; otherwise build the prompt and call chat. The `Bool` records
whether the chat completion was invoked. -/
def rag_query (deps : SearchDeps) (chat : String → Except String String)
    (query : String) : RagReply × Bool :=
  let documents := search_documents deps query
  if documents.isEmpty then (.noRelevantDocs, false)
  else
    match chat (create_rag_prompt query documents) with
    | .ok a => (.answer a, true)
    | .error e => (.generationError e, true)

end Agent

/-! ## Ingestion script startup (`ingest-data.py`, module level and `__main__`)

At import the script reads `AZURE_SEARCH_ENDPOINT` and
`AZURE_SEARCH_ADMIN_KEY` with `os.getenv` (which yields `None` when unset)
and immediately constructs `AzureKeyCredential(search_admin_key)` and the two
clients; only later, under `__main__`, does it check
`if not service_endpoint or not search_admin_key` and raise `SystemExit` with
the clear message. -/

namespace Startup

/-- Environment of the ingestion script; `none` models an unset variable. -/
structure Env where
  searchEndpoint : Option String
  searchAdminKey : Option String
deriving Repr, DecidableEq

/-- How the process terminates (all variants before any network call, since
`ensure_index` / `upload_documents` are only reached in `ranPipeline`). -/
inductive Outcome where
  | uncaughtError (msg : String)
  | systemExitMsg (msg : String)
  | ranPipeline
deriving Repr, DecidableEq

/-- Modelled from the spec: `AzureKeyCredential.__init__` from `azure-core`
(not part of this repository) raises `TypeError("key must be a string.")`
when the key is not a `str` — in particular when it is `None`. -/
def azureKeyCredentialInit : Option String → Except String Unit
  | none => .error "key must be a string."
  | some _ => .ok ()

/-- Python truthiness of an optional string: `None` and `""` are falsy. -/
def truthy : Option String → Bool
  | none => false
  | some s => ¬ s.isEmpty

/-- The startup sequence of `ingest-data.py` run as a script:
module-level `AzureKeyCredential(search_admin_key)` first (twice in the
source, identically), then the `__main__` guard. -/
def ingestScriptStartup (env : Env) : Outcome :=
  match azureKeyCredentialInit env.searchAdminKey with
  | .error m => .uncaughtError m
  | .ok _ =>
    if ¬ truthy env.searchEndpoint ∨ ¬ truthy env.searchAdminKey then
      .systemExitMsg "Set AZURE_SEARCH_ENDPOINT and AZURE_SEARCH_ADMIN_KEY environment variables first."
    else .ranPipeline

end Startup

/-! ## Concrete inputs used in witnesses and counterexamples -/

namespace Examples

/-- A file reached through its relative spelling. -/
def relView : Ingest.FileView :=
  ⟨"data/a.txt", "/repo/data/a.txt", "a.txt", "hello", 100, 5⟩

/-- The same unchanged file reached through its absolute spelling. -/
def absView : Ingest.FileView :=
  ⟨"/repo/data/a.txt", "/repo/data/a.txt", "a.txt", "hello", 100, 5⟩

/-- The same path spelling as `relView`, re-read from a different working
directory with different content but an unchanged stat tuple. -/
def relView2 : Ingest.FileView :=
  ⟨"data/a.txt", "/other/cwd/data/a.txt", "a.txt", "world", 100, 5⟩

/-- A third read through the spelling of `relView`, stat tuple unchanged. -/
def relView3 : Ingest.FileView :=
  ⟨"data/a.txt", "/third/cwd/data/a.txt", "a.txt", "hello again", 100, 5⟩

/-- A 16001-character query. -/
def longQuery : String := String.mk (List.replicate 16001 'a')

/-- A search hit with 1500 characters of content. -/
def doc1500 : Agent.SearchDoc := ⟨"id1", String.mk (List.replicate 1500 'x'), "t1", "/p1", 0⟩

/-- A search hit with 800 characters of content. -/
def doc800 : Agent.SearchDoc := ⟨"id2", String.mk (List.replicate 800 'y'), "t2", "/p2", 0⟩

/-- Dependencies whose embedding call fails and whose lexical search succeeds. -/
def depsEmbedDown : Agent.SearchDeps :=
  ⟨true, fun _ => .error "embedding request failed", fun _ => .ok [], .ok [doc800]⟩

/-- Dependencies where every external call fails. -/
def depsAllDown : Agent.SearchDeps :=
  ⟨true, fun _ => .error "embedding request failed", fun _ => .error "x", .error "search down"⟩

/-- Azure OpenAI env with 1-dimensional embeddings, for small examples. -/
def envW : Ingest.AoaiEnv := ⟨true, true, 1⟩

/-- An embedding service that fails exactly on the text `"BAD"`. -/
def svcW : String → Except String (List Int) :=
  fun s => if s = "BAD" then .error "boom" else .ok [0]

def fOk : Ingest.FileView := ⟨"data/ok.txt", "/repo/data/ok.txt", "ok.txt", "fine", 10, 4⟩

def fBad : Ingest.FileView := ⟨"data/bad.txt", "/repo/data/bad.txt", "bad.txt", "BAD", 11, 3⟩

def fAfter : Ingest.FileView := ⟨"data/z.txt", "/repo/data/z.txt", "z.txt", "later", 12, 5⟩

/-- Environment with the search endpoint set and the admin key unset. -/
def envMissingKey : Startup.Env := ⟨some "https://example.search.windows.net", none⟩

end Examples

/-! ## Theorems settling the claims -/

/-- C1: the document id produced by `file_to_doc` is a deterministic function
of the observed `(path string, st_mtime_ns, st_size)` tuple: any two
observations that agree on that tuple — content, working directory and
everything else free, so in particular repeated calls and process restarts —
yield the same `id`. -/
theorem file_to_doc_id_idempotent (f1 f2 : Ingest.FileView)
    (hpath : f1.path = f2.path) (hmtime : f1.mtimeNs = f2.mtimeNs)
    (hsize : f1.size = f2.size) :
    (Ingest.file_to_doc f1).id = (Ingest.file_to_doc f2).id := by
  simp [Ingest.file_to_doc, Ingest.doc_id, Ingest.fingerprint, hpath, hmtime, hsize]

/-- Witness for C1: two reads of the same unchanged file from different
working directories and with different content agree on the id. -/
theorem file_to_doc_id_idempotent_witness :
    (Ingest.file_to_doc Examples.relView).id = (Ingest.file_to_doc Examples.relView2).id :=
  file_to_doc_id_idempotent Examples.relView Examples.relView2 rfl rfl rfl

/-- C8 counterexample: `file_to_doc` hashes the path exactly as passed, not
`os.path.abspath(path)` (the absolute path only populates the `path` field),
so the same unchanged file reached through its relative and its absolute
spelling receives two different ids. -/
theorem doc_id_spelling_counterexample :
    (Ingest.file_to_doc Examples.relView).id ≠ (Ingest.file_to_doc Examples.absView).id := by
  decide

/-- C8 amended: the id is derived from the path string exactly as passed to
`file_to_doc` (together with mtime and size) — `os.path.abspath` only
populates the `path` field — so two invocations agree on the id exactly when
they use the same spelling of an unchanged file; relative versus absolute
spellings of the same file may differ. -/
theorem doc_id_from_spelled_path (f1 f2 : Ingest.FileView)
    (hpath : f1.path = f2.path) (hmtime : f1.mtimeNs = f2.mtimeNs)
    (hsize : f1.size = f2.size) :
    (Ingest.file_to_doc f1).id = Ingest.doc_id f1.path f1.mtimeNs f1.size ∧
    (Ingest.file_to_doc f1).path = f1.absPath ∧
    (Ingest.file_to_doc f1).id = (Ingest.file_to_doc f2).id := by
  refine ⟨rfl, rfl, ?_⟩
  simp [Ingest.file_to_doc, Ingest.doc_id, Ingest.fingerprint, hpath, hmtime, hsize]

/-- Witness for the amended C8 at a third read of the `relView` file. -/
theorem doc_id_from_spelled_path_witness :
    (Ingest.file_to_doc Examples.relView).id
        = Ingest.doc_id Examples.relView.path Examples.relView.mtimeNs Examples.relView.size ∧
    (Ingest.file_to_doc Examples.relView).path = Examples.relView.absPath ∧
    (Ingest.file_to_doc Examples.relView).id = (Ingest.file_to_doc Examples.relView3).id :=
  doc_id_from_spelled_path Examples.relView Examples.relView3 rfl rfl rfl

/-- C7 counterexample: on the query path, `search_documents` passes the query
text to the embedding call unchanged; a 16001-character query is submitted
whole, not truncated to its 16000-character prefix. -/
theorem query_embed_no_truncation_counterexample :
    16000 < (Agent.queryEmbedInput Examples.longQuery).length ∧
    Agent.queryEmbedInput Examples.longQuery
      ≠ String.mk (Examples.longQuery.data.take 16000) := by
  have hlen : Examples.longQuery.data.length = 16001 := by
    rw [show Examples.longQuery.data = List.replicate 16001 'a' from rfl,
      List.length_replicate]
  constructor
  · show 16000 < Examples.longQuery.data.length
    omega
  · intro h
    have h2 : Examples.longQuery.data.length = (Examples.longQuery.data.take 16000).length :=
      congrArg (fun s => s.data.length) h
    rw [List.length_take, hlen] at h2
    omega

/-- C7 amended: on the ingestion path, `get_embedding` submits exactly
`snippet text` to the provider — silently and deterministically the
16000-character prefix when the text is longer than 16000 characters, the
text unchanged otherwise — while on the query path the query is submitted
unchanged regardless of length. -/
theorem embedding_truncation_ingestion_only (env : Ingest.AoaiEnv)
    (svc1 svc2 : String → Except String (List Int)) (text q : String)
    (hsvc : svc1 (Ingest.snippet text) = svc2 (Ingest.snippet text)) :
    Ingest.get_embedding env svc1 text = Ingest.get_embedding env svc2 text ∧
    (16000 < text.length →
      Ingest.snippet text = String.mk (text.data.take 16000) ∧
      (Ingest.snippet text).length = 16000) ∧
    (text.length ≤ 16000 → Ingest.snippet text = text) ∧
    Agent.queryEmbedInput q = q := by
  refine ⟨?_, ?_, ?_, rfl⟩
  · simp only [Ingest.get_embedding, hsvc]
  · intro hlong
    have hn : ¬ text.length ≤ 16000 := by omega
    refine ⟨by simp [Ingest.snippet, hn], ?_⟩
    have hd : text.data.length = text.length := rfl
    simp [Ingest.snippet, hn]
    omega
  · intro hshort
    simp [Ingest.snippet, hshort]

/-- Witness for the amended C7: the 16001-character query as ingestion text is
truncated, and as a query is submitted unchanged. -/
theorem embedding_truncation_ingestion_only_witness :
    Ingest.snippet Examples.longQuery = String.mk (Examples.longQuery.data.take 16000) ∧
    Agent.queryEmbedInput Examples.longQuery = Examples.longQuery :=
  ⟨((embedding_truncation_ingestion_only ⟨true, true, 1⟩ (fun _ => .ok [0]) (fun _ => .ok [0])
      Examples.longQuery Examples.longQuery rfl).2.1
      (by show 16000 < (List.replicate 16001 'a').length
          rw [List.length_replicate]; omega)).1,
   (embedding_truncation_ingestion_only ⟨true, true, 1⟩ (fun _ => .ok [0]) (fun _ => .ok [0])
      Examples.longQuery Examples.longQuery rfl).2.2.2⟩

/-- C5: in the context block of `create_rag_prompt`, a document whose content
exceeds 1000 characters contributes its title and exactly the first 1000
characters of content followed by the ellipsis marker, a document of at most
1000 characters contributes its title and its full content with nothing
appended, and the block is the `"\n\n"`-join of these per-document entries in
search order. -/
theorem create_rag_prompt_truncation (doc : Agent.SearchDoc) (docs : List Agent.SearchDoc) :
    (1000 < doc.content.length →
      Agent.docEntry doc
          = "Document: " ++ doc.title ++ "\n" ++ String.mk (doc.content.data.take 1000) ++ "..." ∧
      (String.mk (doc.content.data.take 1000)).length = 1000) ∧
    (doc.content.length ≤ 1000 →
      Agent.docEntry doc = "Document: " ++ doc.title ++ "\n" ++ doc.content) ∧
    Agent.ragContext docs = String.intercalate "\n\n" (docs.map Agent.docEntry) := by
  refine ⟨?_, ?_, rfl⟩
  · intro h
    refine ⟨by simp [Agent.docEntry, h], ?_⟩
    have hd : doc.content.data.length = doc.content.length := rfl
    simp
    omega
  · intro h
    have hn : ¬ 1000 < doc.content.length := by omega
    simp [Agent.docEntry, hn]

/-- Witness for C5 at a 1500-character and an 800-character document. -/
theorem create_rag_prompt_truncation_witness :
    Agent.docEntry Examples.doc1500
        = "Document: " ++ Examples.doc1500.title ++ "\n"
            ++ String.mk (Examples.doc1500.content.data.take 1000) ++ "..." ∧
    Agent.docEntry Examples.doc800
        = "Document: " ++ Examples.doc800.title ++ "\n" ++ Examples.doc800.content :=
  ⟨((create_rag_prompt_truncation Examples.doc1500 []).1
      (by show 1000 < (List.replicate 1500 'x').length
          rw [List.length_replicate]; omega)).1,
   (create_rag_prompt_truncation Examples.doc800 []).2.1
      (by show (List.replicate 800 'y').length ≤ 1000
          rw [List.length_replicate]; omega)⟩

/-- C4: when `search_documents` returns no documents, `rag_query` reports "no
relevant documents" and the chat completion capability is never invoked (the
flag is `false`, and the outcome is independent of `chat`). -/
theorem rag_query_empty_short_circuit (deps : Agent.SearchDeps)
    (chat : String → Except String String) (q : String)
    (h : Agent.search_documents deps q = []) :
    Agent.rag_query deps chat q = (Agent.RagReply.noRelevantDocs, false) := by
  simp [Agent.rag_query, h]

/-- Witness for C4: with every search path failing, retrieval is empty and
`rag_query` short-circuits even though the chat capability would answer. -/
theorem rag_query_empty_short_circuit_witness :
    Agent.rag_query Examples.depsAllDown (fun _ => Except.ok "an answer") "q"
      = (Agent.RagReply.noRelevantDocs, false) :=
  rag_query_empty_short_circuit Examples.depsAllDown (fun _ => Except.ok "an answer") "q" rfl

/-- C2: if the query-embedding step or the hybrid search raises,
`search_documents` falls back to the lexical-only call: it returns the lexical
results when that call succeeds, and the empty list when the lexical call also
raises — in both cases without propagating any exception (it is a total
function into `List SearchDoc`). -/
theorem search_documents_vector_fallback (deps : Agent.SearchDeps) (q : String)
    (hfail : (∃ e, deps.embed (Agent.queryEmbedInput q) = .error e)
      ∨ ∃ v e, deps.embed (Agent.queryEmbedInput q) = .ok v ∧ deps.hybrid v = .error e) :
    (∀ docs, deps.lexical = .ok docs → Agent.search_documents deps q = docs) ∧
    (∀ e2, deps.lexical = .error e2 → Agent.search_documents deps q = []) := by
  have hvec : ∃ e, Agent.vectorSearchAttempt deps q = .error e := by
    by_cases hc : deps.aoaiConfigured = true
    · rcases hfail with ⟨e, he⟩ | ⟨v, e, hv, he⟩
      · exact ⟨e, by simp [Agent.vectorSearchAttempt, hc, he]⟩
      · exact ⟨e, by simp [Agent.vectorSearchAttempt, hc, hv, he]⟩
    · exact ⟨"Missing Azure OpenAI configuration for embeddings",
        by simp [Agent.vectorSearchAttempt, hc]⟩
  obtain ⟨e, he⟩ := hvec
  constructor
  · intro docs hlex
    simp [Agent.search_documents, he, hlex]
  · intro e2 hlex
    simp [Agent.search_documents, he, hlex]

/-- Witness for C2: embedding is down, the lexical path succeeds, and
`search_documents` returns the lexical results. -/
theorem search_documents_vector_fallback_witness :
    Agent.search_documents Examples.depsEmbedDown "q" = [Examples.doc800] :=
  (search_documents_vector_fallback Examples.depsEmbedDown "q"
    (Or.inl ⟨"embedding request failed", rfl⟩)).1 [Examples.doc800] rfl

/-- Invariant of the `upload_documents` loop: starting from a partial batch
smaller than `B`, the flushed calls number `⌈(batch.length + ds.length) / B⌉`,
every call except possibly the last carries exactly `B` documents, and the
last call carries the remainder (or `B` when `B` divides the total). -/
theorem uploadGo_spec {α : Type} (B : Nat) (hB : 1 ≤ B) (ds : List α) :
    ∀ batch : List α, batch.length < B →
      (Ingest.uploadGo B ds batch).length = (batch.length + ds.length + B - 1) / B ∧
      (∀ l ∈ (Ingest.uploadGo B ds batch).dropLast, l.length = B) ∧
      (∀ l, (Ingest.uploadGo B ds batch).getLast? = some l →
        l.length = if (batch.length + ds.length) % B = 0 then B
          else (batch.length + ds.length) % B) := by
  induction ds with
  | nil =>
    intro batch hlt
    by_cases hb : batch = []
    · subst hb
      have hres : Ingest.uploadGo B ([] : List α) [] = [] := by
        simp [Ingest.uploadGo]
      rw [hres]
      refine ⟨?_, by simp, by simp⟩
      simp only [List.length_nil, Nat.zero_add, Nat.add_zero]
      exact (Nat.div_eq_of_lt (by omega)).symm
    · have hbe : batch.isEmpty = false := by simpa [List.isEmpty_iff] using hb
      have hpos : 0 < batch.length := List.length_pos.mpr hb
      have hres : Ingest.uploadGo B ([] : List α) batch = [batch] := by
        simp [Ingest.uploadGo, hbe]
      rw [hres]
      refine ⟨?_, by simp, ?_⟩
      · simp only [List.length_singleton, List.length_nil, Nat.add_zero]
        exact (Nat.div_eq_of_lt_le (by omega) (by omega)).symm
      · intro l hl
        simp only [List.getLast?_singleton, Option.some.injEq] at hl
        subst hl
        rw [List.length_nil, Nat.add_zero, Nat.mod_eq_of_lt hlt, if_neg (by omega)]
  | cons d ds ih =>
    intro batch hlt
    by_cases hfl : B ≤ (batch ++ [d]).length
    · have hres : Ingest.uploadGo B (d :: ds) batch
          = (batch ++ [d]) :: Ingest.uploadGo B ds [] := by
        simp only [Ingest.uploadGo]
        rw [if_pos hfl]
      have hlen2 : (batch ++ [d]).length = B := by
        simp only [List.length_append, List.length_singleton, List.length_nil] at hfl ⊢
        omega
      have hb1 : batch.length + 1 = B := by
        simpa using hlen2
      obtain ⟨ih1, ih2, ih3⟩ := ih [] (by simp; omega)
      rw [hres]
      refine ⟨?_, ?_, ?_⟩
      · simp only [List.length_cons, ih1, List.length_nil, Nat.zero_add]
        rw [show batch.length + (ds.length + 1) + B - 1 = ds.length + B - 1 + B by omega]
        rw [Nat.add_div_right _ (by omega)]
      · intro l hl
        cases hcalls : Ingest.uploadGo B ds [] with
        | nil =>
          rw [hcalls] at hl
          simp at hl
        | cons c cs =>
          rw [hcalls] at hl
          rw [List.dropLast_cons₂] at hl
          rcases List.mem_cons.mp hl with hEq | hMem
          · rw [hEq]
            exact hlen2
          · rw [hcalls] at ih2
            exact ih2 l hMem
      · intro l hl
        cases hcalls : Ingest.uploadGo B ds [] with
        | nil =>
          rw [hcalls] at hl ih1
          simp only [List.getLast?_singleton, Option.some.injEq] at hl
          subst hl
          simp only [List.length_nil, Nat.zero_add] at ih1
          have hds : ds.length = 0 := by
            have hz := (Nat.div_eq_zero_iff (by omega : 0 < B)).mp ih1.symm
            omega
          have hsum : batch.length + (d :: ds).length = B := by
            simp only [List.length_append, List.length_singleton, List.length_nil] at hlen2
            simp only [List.length_cons, hds]
            omega
          rw [hsum, Nat.mod_self, if_pos rfl]
          exact hlen2
        | cons c cs =>
          rw [hcalls] at hl ih3
          rw [List.getLast?_cons_cons] at hl
          have hlast := ih3 l hl
          have hsum : batch.length + (d :: ds).length = B + (ds.length) := by
            simp only [List.length_append, List.length_singleton, List.length_nil] at hlen2
            simp only [List.length_cons]
            omega
          rw [hsum, Nat.add_mod_left]
          simpa using hlast
    · have hres : Ingest.uploadGo B (d :: ds) batch
          = Ingest.uploadGo B ds (batch ++ [d]) := by
        simp only [Ingest.uploadGo]
        rw [if_neg hfl]
      have hlt2 : (batch ++ [d]).length < B := by
        simp only [List.length_append, List.length_singleton, List.length_nil] at hfl ⊢
        omega
      obtain ⟨ih1, ih2, ih3⟩ := ih (batch ++ [d]) hlt2
      rw [hres]
      have hnum : (batch ++ [d]).length + ds.length = batch.length + (d :: ds).length := by
        simp only [List.length_append, List.length_singleton, List.length_nil, List.length_cons]
        omega
      refine ⟨?_, ih2, ?_⟩
      · rw [ih1, hnum]
      · intro l hl
        have hlast := ih3 l hl
        rw [hnum] at hlast
        exact hlast

/-- C3: for `N` input documents and batch size `B ≥ 1`, `upload_documents`
issues exactly `⌈N/B⌉` upsert calls; every call except the last carries
exactly `B` documents and the last carries `N mod B` (or `B` when `B`
divides `N`). -/
theorem upload_documents_batch_flush {α : Type} (docs : List α) (B : Nat) (hB : 1 ≤ B) :
    (Ingest.upload_documents docs B).length = (docs.length + B - 1) / B ∧
    (∀ l ∈ (Ingest.upload_documents docs B).dropLast, l.length = B) ∧
    (∀ l, (Ingest.upload_documents docs B).getLast? = some l →
      l.length = if docs.length % B = 0 then B else docs.length % B) := by
  have h := uploadGo_spec B hB docs [] (by simp; omega)
  simpa [Ingest.upload_documents] using h

/-- Witness for C3: five documents at batch size two yield three calls,
`[2, 2, 1]`. -/
theorem upload_documents_batch_flush_witness :
    (Ingest.upload_documents [1, 2, 3, 4, 5] 2).length = 3 := by
  have h := (upload_documents_batch_flush [1, 2, 3, 4, 5] 2 (by omega)).1
  simpa using h

/-- Every flushed batch is non-empty and no larger than `B`. -/
theorem uploadGo_sizes {α : Type} (B : Nat) (hB : 1 ≤ B) (ds : List α) :
    ∀ batch : List α, batch.length < B →
      ∀ l ∈ Ingest.uploadGo B ds batch, 0 < l.length ∧ l.length ≤ B := by
  induction ds with
  | nil =>
    intro batch hlt l hl
    by_cases hb : batch = []
    · subst hb
      simp [Ingest.uploadGo] at hl
    · have hbe : batch.isEmpty = false := by simpa [List.isEmpty_iff] using hb
      have hpos : 0 < batch.length := List.length_pos.mpr hb
      simp only [Ingest.uploadGo, hbe, Bool.false_eq_true, if_false,
        List.mem_singleton] at hl
      subst hl
      omega
  | cons d ds ih =>
    intro batch hlt l hl
    simp only [Ingest.uploadGo] at hl
    by_cases hfl : B ≤ (batch ++ [d]).length
    · rw [if_pos hfl] at hl
      rcases List.mem_cons.mp hl with hEq | hMem
      · subst hEq
        simp only [List.length_append, List.length_singleton, List.length_nil] at hfl ⊢
        omega
      · exact ih [] (by simp; omega) l hMem
    · rw [if_neg hfl] at hl
      refine ih (batch ++ [d]) ?_ l hl
      simp only [List.length_append, List.length_singleton, List.length_nil] at hfl ⊢
      omega

/-- C10: every upsert call issued by `upload_documents` (with `batch_size ≥ 1`,
as in every call site) carries at least one and at most `B` documents, and an
empty input iterable issues no upsert call at all. -/
theorem upload_documents_call_bounds {α : Type} (docs : List α) (B : Nat) (hB : 1 ≤ B) :
    (∀ l ∈ Ingest.upload_documents docs B, 0 < l.length ∧ l.length ≤ B) ∧
    Ingest.upload_documents ([] : List α) B = [] := by
  refine ⟨fun l hl => uploadGo_sizes B hB docs [] (by simp; omega) l hl, ?_⟩
  simp [Ingest.upload_documents, Ingest.uploadGo]

/-- Witness for C10 on three documents at batch size two. -/
theorem upload_documents_call_bounds_witness :
    (0 < ([1, 2] : List Nat).length ∧ ([1, 2] : List Nat).length ≤ 2) ∧
    Ingest.upload_documents ([] : List Nat) 2 = [] :=
  ⟨(upload_documents_call_bounds [1, 2, 3] 2 (by omega)).1 [1, 2] (by decide),
   (upload_documents_call_bounds [1, 2, 3] 2 (by omega)).2⟩

/-- When every file before `bad` converts successfully and `bad` fails, the
ingestion loop returns exactly the batches flushed before the failure together
with the error, independently of everything after `bad`. -/
theorem ingestGo_abort {α β : Type} (B : Nat) (f2d : α → Except String β)
    (bad : α) (post : List α) (e : String) (hbad : f2d bad = .error e) :
    ∀ (pre : List α) (docs : List β) (batch : List β) (acc : List (List β)),
      pre.map f2d = docs.map Except.ok →
      Ingest.ingestGo B f2d (pre ++ bad :: post) batch acc
        = (acc ++ Ingest.flushGo B docs batch, some e) := by
  intro pre
  induction pre with
  | nil =>
    intro docs batch acc hmap
    have hdocs : docs = [] := by
      cases docs with
      | nil => rfl
      | cons x xs => simp at hmap
    subst hdocs
    simp [Ingest.ingestGo, Ingest.flushGo, hbad]
  | cons p pre ih =>
    intro docs batch acc hmap
    cases docs with
    | nil => simp at hmap
    | cons x xs =>
      simp only [List.map_cons, List.cons.injEq] at hmap
      obtain ⟨hp, hrest⟩ := hmap
      rw [List.cons_append]
      simp only [Ingest.ingestGo, hp, Ingest.flushGo]
      by_cases hfl : B ≤ (batch ++ [x]).length
      · rw [if_pos hfl, if_pos hfl, ih xs [] (acc ++ [batch ++ [x]]) hrest]
        simp
      · rw [if_neg hfl, if_neg hfl, ih xs (batch ++ [x]) acc hrest]

/-- C6: during ingestion with embeddings, if the embedding of one file `bad`
fails while every earlier file embeds successfully, the whole run aborts with
the fatal error naming `bad`'s path: the result consists of exactly the full
batches flushed from the earlier documents (which therefore remain upserted)
plus the error — the files after `bad` do not appear at all (for any `post`,
and no trailing partial batch is flushed). -/
theorem ingest_embed_failure_aborts (B : Nat) (env : Ingest.AoaiEnv)
    (svc : String → Except String (List Int)) (pre post : List Ingest.FileView)
    (bad : Ingest.FileView) (docs : List Ingest.Doc) (e : String)
    (hpre : pre.map (Ingest.file_to_doc_embedded env svc) = docs.map Except.ok)
    (hbad : Ingest.get_embedding env svc bad.content = .error e) :
    Ingest.ingestRun B (Ingest.file_to_doc_embedded env svc) (pre ++ bad :: post)
      = (Ingest.flushGo B docs [],
         some ("Failed to create embedding for " ++ bad.path ++ ": " ++ e)) := by
  have hbad2 : Ingest.file_to_doc_embedded env svc bad
      = .error ("Failed to create embedding for " ++ bad.path ++ ": " ++ e) := by
    simp [Ingest.file_to_doc_embedded, hbad]
  have h := ingestGo_abort B (Ingest.file_to_doc_embedded env svc) bad post _ hbad2
    pre docs [] [] hpre
  simpa [Ingest.ingestRun] using h

/-- Witness for C6: fail on the second of three files at batch size one; only
the first file's document is upserted and the run stops with the error naming
the second file. -/
theorem ingest_embed_failure_aborts_witness :
    Ingest.ingestRun 1 (Ingest.file_to_doc_embedded Examples.envW Examples.svcW)
        [Examples.fOk, Examples.fBad, Examples.fAfter]
      = ([[{Ingest.file_to_doc Examples.fOk with embedding := some [0]}]],
         some ("Failed to create embedding for " ++ Examples.fBad.path ++ ": " ++ "boom")) := by
  have h := ingest_embed_failure_aborts 1 Examples.envW Examples.svcW
    [Examples.fOk] [Examples.fAfter] Examples.fBad
    [{Ingest.file_to_doc Examples.fOk with embedding := some [0]}] "boom" (by rfl) (by rfl)
  simpa [Ingest.flushGo] using h

/-- C9: with `AZURE_SEARCH_ENDPOINT` set but `AZURE_SEARCH_ADMIN_KEY` unset,
the script terminates with the uncaught `TypeError("key must be a string.")`
raised by the module-level `AzureKeyCredential` constructor — a non-zero exit
before any network call, but its message names neither missing variable; the
script's own clear `SystemExit` message is never reached. -/
theorem startup_missing_key_no_clear_message :
    Startup.ingestScriptStartup Examples.envMissingKey
        = Startup.Outcome.uncaughtError "key must be a string." ∧
    ¬ ("AZURE_SEARCH_ADMIN_KEY".data <:+: "key must be a string.".data) ∧
    ¬ ("AZURE_SEARCH_ENDPOINT".data <:+: "key must be a string.".data) :=
  ⟨rfl, by decide, by decide⟩
